import Mathlib

/-!
Verification development for the SnowJamKun backend
(`src/backend/app/{detection,storage,incoming,main,config}.py`).

Modelling conventions, used throughout:

* A file name is a `List Char`; a filesystem path is its list of components
  (`pathlib.Path` split on separators), so `Path := List (List Char)`.
* Timestamps (`st_mtime`, `datetime` values) are modelled at second
  granularity as `Int` seconds since the Unix epoch, in UTC.  All the
  comparisons performed by the code are order comparisons, which this
  preserves.
* Decoded images (`cv2.imread` results) are row-major pixel grids:
  `List (List Nat)` for single-channel data, with BGR triples for colour
  data.  `cv2.imread` returning `None` (missing or undecodable file) is
  modelled by passing `Option` values to the functions that consume them.
* Python `float` ratios are modelled as `ℚ`; the code only ever divides,
  compares and thresholds these values, and those order facts agree.
* Filesystem effects (move, unlink) are modelled by explicit state passing;
  OS-level failures (`OSError`) that the code catches are modelled by
  Boolean failure oracles supplied as arguments.
-/

namespace SnowJamKun

/-! ## Names and paths

`pathlib` model: a `Name` is one path component, a `Path` a component list. -/

abbrev Name := List Char

abbrev Path := List Name

/-- Last path component, `Path.name` in `pathlib`. -/
def pName (p : Path) : Name := p.getLastD []

/-- Replace the last component, `Path.with_name` in `pathlib`. -/
def withName (p : Path) (n : Name) : Path := p.dropLast ++ [n]

/-- Index of the last occurrence of a dot in a name (`str.rfind` of a dot,
returning `none` instead of -1). -/
def rfindDot : Name → Option Nat
  | [] => none
  | c :: rest =>
    match rfindDot rest with
    | some i => some (i + 1)
    | none => if c = '.' then some 0 else none

/-- The `pathlib` stem of a final component: the part before the final dot,
provided that dot is neither the leading character nor the trailing one;
otherwise the whole name. -/
def pyStem (n : Name) : Name :=
  match rfindDot n with
  | some i => if 0 < i ∧ i + 1 < n.length then n.take i else n
  | none => n

/-- The derivation suffix appended by `_overlay_path` in `detection.py`. -/
def maskSuf : Name := ['_', 'm', 'a', 's', 'k']

/-- The trailing `_mask.png` added by `_overlay_path` when renaming. -/
def maskSufPng : Name := maskSuf ++ ['.', 'p', 'n', 'g']

/-- One step of stripping trailing `_mask` groups, fuelled so that it
computes by structural recursion.  `stripMaskGo fuel s` removes a trailing
`_mask` and recurses while fuel remains; the fuel is always initialised to
the length of the string, which is sufficient. -/
def stripMaskGo : Nat → Name → Name
  | 0, s => s
  | fuel + 1, s =>
    if maskSuf <:+ s then stripMaskGo fuel (s.take (s.length - 5)) else s

/-- Model of `re.sub(r"(_mask)+$", "", stem)` in `_overlay_path`
(`detection.py` line 94): delete every trailing `_mask` group. -/
def stripMask (s : Name) : Name := stripMaskGo s.length s

/-- Model of `_overlay_path`'s new file name: the stripped stem followed by
a single `_mask.png` (`detection.py` line 95). -/
def overlayName (n : Name) : Name := stripMask (pyStem n) ++ maskSufPng

/-- Model of `_overlay_path` (`detection.py` lines 91-95). -/
def overlay_path (p : Path) : Path := withName p (overlayName (pName p))

/-- Model of `_is_overlay` inside `list_recent_images`
(`storage.py` lines 45-46): a SUBSTRING test, `"_mask" in p.name`. -/
def is_overlay (p : Path) : Bool := decide (maskSuf <:+: pName p)

/-- The spec's notion of an overlay-named file, stated for comparison with
the code's `is_overlay`: the name's stem carries the `_mask` derivation
suffix produced by `_overlay_path`. -/
def overlayNamedSpec (n : Name) : Prop := maskSuf <:+ pyStem n

/-! ### Lemmas about suffix stripping -/

theorem stripMaskGo_succ (f : Nat) (s : Name) :
    stripMaskGo (f + 1) s =
      if maskSuf <:+ s then stripMaskGo f (s.take (s.length - 5)) else s := rfl

theorem not_suffix_nil : ¬ maskSuf <:+ ([] : Name) := by decide

theorem stripMaskGo_fuel (f₁ : Nat) : ∀ (f₂ : Nat) (s : Name),
    s.length ≤ f₁ → s.length ≤ f₂ → stripMaskGo f₁ s = stripMaskGo f₂ s := by
  induction f₁ with
  | zero =>
    intro f₂ s h₁ _
    have hs : s = [] := List.eq_nil_of_length_eq_zero (Nat.le_zero.mp h₁)
    subst hs
    cases f₂ with
    | zero => rfl
    | succ f =>
      rw [stripMaskGo_succ, if_neg not_suffix_nil]
      rfl
  | succ f ih =>
    intro f₂ s h₁ h₂
    by_cases hsuf : maskSuf <:+ s
    · have hlen : 5 ≤ s.length := hsuf.length_le
      have htl : (s.take (s.length - 5)).length = s.length - 5 := by
        rw [List.length_take]; omega
      cases f₂ with
      | zero => omega
      | succ f₂' =>
        rw [stripMaskGo_succ, stripMaskGo_succ, if_pos hsuf, if_pos hsuf]
        exact ih f₂' _ (by omega) (by omega)
    · cases f₂ with
      | zero =>
        have hs : s = [] := List.eq_nil_of_length_eq_zero (Nat.le_zero.mp h₂)
        subst hs
        rw [stripMaskGo_succ, if_neg not_suffix_nil]
        rfl
      | succ f₂' =>
        rw [stripMaskGo_succ, stripMaskGo_succ, if_neg hsuf, if_neg hsuf]

theorem stripMaskGo_not_suffix (f : Nat) : ∀ (s : Name),
    s.length ≤ f → ¬ maskSuf <:+ stripMaskGo f s := by
  induction f with
  | zero =>
    intro s h
    have hs : s = [] := List.eq_nil_of_length_eq_zero (Nat.le_zero.mp h)
    subst hs
    exact not_suffix_nil
  | succ f ih =>
    intro s h
    by_cases hsuf : maskSuf <:+ s
    · have hlen : 5 ≤ s.length := hsuf.length_le
      have htl : (s.take (s.length - 5)).length = s.length - 5 := by
        rw [List.length_take]; omega
      rw [stripMaskGo_succ, if_pos hsuf]
      exact ih _ (by omega)
    · rw [stripMaskGo_succ, if_neg hsuf]
      exact hsuf

theorem stripMask_not_suffix (s : Name) : ¬ maskSuf <:+ stripMask s :=
  stripMaskGo_not_suffix s.length s le_rfl

theorem stripMask_of_not_suffix {s : Name} (h : ¬ maskSuf <:+ s) :
    stripMask s = s := by
  cases s with
  | nil => rfl
  | cons c cs =>
    show stripMaskGo (cs.length + 1) (c :: cs) = c :: cs
    rw [stripMaskGo_succ, if_neg h]

theorem stripMask_idem (s : Name) : stripMask (stripMask s) = stripMask s :=
  stripMask_of_not_suffix (stripMask_not_suffix s)

theorem stripMask_append_suffix (t : Name) :
    stripMask (t ++ maskSuf) = stripMask t := by
  have hlen : (t ++ maskSuf).length = t.length + 5 := by simp [maskSuf]
  have hsuf : maskSuf <:+ t ++ maskSuf := List.suffix_append t maskSuf
  have htake : (t ++ maskSuf).take ((t ++ maskSuf).length - 5) = t := by
    rw [hlen]
    rw [show t.length + 5 - 5 = t.length from by omega, List.take_left]
  unfold stripMask
  rw [hlen, show t.length + 5 = t.length + 4 + 1 from by omega,
    stripMaskGo_succ, if_pos hsuf, htake]
  exact stripMaskGo_fuel (t.length + 4) t.length t (by omega) le_rfl

/-! ### Lemmas about `pyStem` on derived names -/

theorem rfindDot_append_found {u : Name} {k : Nat} (t : Name)
    (h : rfindDot u = some k) : rfindDot (t ++ u) = some (t.length + k) := by
  induction t with
  | nil => simpa using h
  | cons c rest ih =>
    have step : rfindDot (c :: (rest ++ u)) =
        match rfindDot (rest ++ u) with
        | some i => some (i + 1)
        | none => if c = '.' then some 0 else none := rfl
    rw [List.cons_append, step, ih]
    simp only [List.length_cons, Option.some.injEq]
    omega

theorem rfindDot_maskSufPng : rfindDot maskSufPng = some 5 := by decide

theorem pyStem_take {n : Name} {i : Nat} (h : rfindDot n = some i)
    (h1 : 0 < i) (h2 : i + 1 < n.length) : pyStem n = n.take i := by
  unfold pyStem
  rw [h]
  exact if_pos ⟨h1, h2⟩

theorem pyStem_append_maskSufPng (t : Name) :
    pyStem (t ++ maskSufPng) = t ++ maskSuf := by
  have hfind : rfindDot (t ++ maskSufPng) = some (t.length + 5) :=
    rfindDot_append_found t rfindDot_maskSufPng
  have hlen : (t ++ maskSufPng).length = t.length + 9 := by
    simp [maskSufPng, maskSuf]
  rw [pyStem_take hfind (by omega) (by rw [hlen]; omega)]
  rw [show t ++ maskSufPng = (t ++ maskSuf) ++ ['.', 'p', 'n', 'g'] from by
    simp [maskSufPng]]
  rw [show t.length + 5 = (t ++ maskSuf).length from by simp [maskSuf]]
  exact List.take_left _ _

theorem getLastD_append_singleton (l : Path) (n : Name) :
    ∀ (d : Name), (l ++ [n]).getLastD d = n := by
  induction l with
  | nil => intro d; rfl
  | cons a rest ih =>
    intro d
    rw [List.cons_append, List.getLastD_cons]
    exact ih a

theorem pName_withName (p : Path) (n : Name) : pName (withName p n) = n := by
  unfold pName withName
  exact getLastD_append_singleton p.dropLast n []

theorem withName_withName (p : Path) (n m : Name) :
    withName (withName p n) m = withName p m := by
  unfold withName
  rw [List.dropLast_concat]

theorem overlayName_idem (n : Name) :
    overlayName (overlayName n) = overlayName n := by
  unfold overlayName
  rw [pyStem_append_maskSufPng, stripMask_append_suffix, stripMask_idem]

/-- Claim C4: the overlay-name derivation `_overlay_path` is idempotent, and
the stem of its result ends in exactly one `_mask` derivation suffix: it is
`u ++ "_mask"` for a `u` that does not itself end in `_mask`, no matter how
many `_mask` suffixes the input stem already carried. -/
theorem overlay_path_idempotent (p : Path) :
    overlay_path (overlay_path p) = overlay_path p ∧
    pyStem (pName (overlay_path p)) = stripMask (pyStem (pName p)) ++ maskSuf ∧
    ¬ maskSuf <:+ stripMask (pyStem (pName p)) := by
  refine ⟨?_, ?_, stripMask_not_suffix _⟩
  · unfold overlay_path
    rw [pName_withName, withName_withName, overlayName_idem]
  · unfold overlay_path
    rw [pName_withName]
    unfold overlayName
    exact pyStem_append_maskSufPng _

/-! ## Timestamps and the archive layout (`storage.py`)

`datetime.fromtimestamp(ts, tz=timezone.utc)` followed by `%Y`/`%m`/`%d`
formatting is modelled by converting epoch seconds to a proleptic Gregorian
civil date (the standard days-from-civil inversion, which is what CPython
computes) and printing the fields in decimal.  `Int` division is Euclidean,
which agrees with floor division here because every divisor is positive. -/

structure Date where
  year : Int
  month : Nat
  day : Nat
deriving DecidableEq, Repr

/-- Era of a day count shifted to the 0000-03-01 epoch. -/
def cfdEra (z0 : Int) : Int := (z0 + 719468) / 146097

/-- Day-of-era, in `[0, 146096]`. -/
def cfdDoe (z0 : Int) : Nat := ((z0 + 719468) - cfdEra z0 * 146097).toNat

/-- Year-of-era, in `[0, 399]`. -/
def cfdYoe (doe : Nat) : Nat :=
  (doe - doe / 1460 + doe / 36524 - doe / 146096) / 365

/-- Day-of-year relative to March 1. -/
def cfdDoy (doe : Nat) : Nat :=
  doe - (365 * cfdYoe doe + cfdYoe doe / 4 - cfdYoe doe / 100)

/-- Month offset from March. -/
def cfdMp (doy : Nat) : Nat := (5 * doy + 2) / 153

/-- Day of month, from the day-of-year. -/
def cfdDay (doy : Nat) : Nat := doy - (153 * cfdMp doy + 2) / 5 + 1

/-- Calendar month, from the day-of-year. -/
def cfdMonth (doy : Nat) : Nat :=
  if cfdMp doy < 10 then cfdMp doy + 3 else cfdMp doy - 9

/-- Proleptic Gregorian date of a day number (days since 1970-01-01). -/
def civilFromDays (z0 : Int) : Date :=
  ⟨(cfdYoe (cfdDoe z0) : Int) + cfdEra z0 * 400 +
      (if cfdMonth (cfdDoy (cfdDoe z0)) ≤ 2 then 1 else 0),
    cfdMonth (cfdDoy (cfdDoe z0)),
    cfdDay (cfdDoy (cfdDoe z0))⟩

/-- UTC calendar date of an epoch-second timestamp, as computed by
`datetime.fromtimestamp(ts, tz=timezone.utc)`. -/
def dateOfEpoch (t : Int) : Date := civilFromDays (t / 86400)

/-- Decimal digits of a natural number, most significant first, fuelled for
structural computation (`fuel ≥ n` always holds at the call site). -/
def natReprGo : Nat → Nat → Name
  | 0, _ => []
  | _ + 1, 0 => []
  | fuel + 1, n => natReprGo fuel (n / 10) ++ [Char.ofNat (48 + n % 10)]

/-- Decimal rendering of a natural number (`%Y`-style, no padding). -/
def natRepr (n : Nat) : Name := if n = 0 then ['0'] else natReprGo n n

/-- Two-digit zero-padded decimal rendering (`%m`/`%d`-style). -/
def pad2 (n : Nat) : Name := if n < 10 then '0' :: natRepr n else natRepr n

/-- Model of `archive_path` (`storage.py` lines 13-15):
`storage_root / f"{ts:%Y}" / f"{ts:%m}" / f"{ts:%d}" / filename`. -/
def archive_path (storage_root : Path) (ts : Int) (filename : Name) : Path :=
  storage_root ++ [natRepr (dateOfEpoch ts).year.toNat,
    pad2 (dateOfEpoch ts).month, pad2 (dateOfEpoch ts).day, filename]

/-! ### Bounds and digit-length lemmas -/

theorem cfdDoe_lt (z0 : Int) : cfdDoe z0 < 146097 := by
  unfold cfdDoe cfdEra
  omega

theorem cfdDoy_le (doe : Nat) (h : doe < 146097) : cfdDoy doe ≤ 672 := by
  unfold cfdDoy cfdYoe
  omega

theorem cfdMonth_bounds (doy : Nat) (h : doy ≤ 672) :
    1 ≤ cfdMonth doy ∧ cfdMonth doy ≤ 12 := by
  unfold cfdMonth cfdMp
  split <;> omega

theorem cfdDay_bounds (doy : Nat) :
    1 ≤ cfdDay doy ∧ cfdDay doy ≤ 31 := by
  unfold cfdDay cfdMp
  omega

theorem date_month_bounds (t : Int) :
    1 ≤ (dateOfEpoch t).month ∧ (dateOfEpoch t).month ≤ 12 :=
  cfdMonth_bounds _ (cfdDoy_le _ (cfdDoe_lt _))

theorem date_day_bounds (t : Int) :
    1 ≤ (dateOfEpoch t).day ∧ (dateOfEpoch t).day ≤ 31 :=
  cfdDay_bounds _

theorem natReprGo_length (fuel : Nat) : ∀ (n : Nat), 0 < n → n ≤ fuel →
    (natReprGo fuel n).length = Nat.log 10 n + 1 := by
  induction fuel with
  | zero => intro n h1 h2; omega
  | succ fuel ih =>
    intro n h1 h2
    have hstep : natReprGo (fuel + 1) n =
        natReprGo fuel (n / 10) ++ [Char.ofNat (48 + n % 10)] := by
      match n, h1 with
      | n + 1, _ => rfl
    rw [hstep, List.length_append, List.length_singleton]
    by_cases hn : n < 10
    · have hz : n / 10 = 0 := Nat.div_eq_of_lt hn
      have hlog : Nat.log 10 n = 0 := Nat.log_eq_zero_iff.mpr (Or.inl hn)
      rw [hz, hlog]
      cases fuel <;> rfl
    · have hd1 : 0 < n / 10 := Nat.div_pos (by omega) (by omega)
      have hd2 : n / 10 ≤ fuel := by omega
      rw [ih (n / 10) hd1 hd2, Nat.log_div_base]
      have hlog1 : 1 ≤ Nat.log 10 n :=
        Nat.le_log_of_pow_le (by omega) (by omega)
      omega

theorem natRepr_length (n : Nat) (h : 0 < n) :
    (natRepr n).length = Nat.log 10 n + 1 := by
  unfold natRepr
  rw [if_neg (by omega)]
  exact natReprGo_length n n h le_rfl

theorem natRepr_length_four {n : Nat} (h1 : 1000 ≤ n) (h2 : n < 10000) :
    (natRepr n).length = 4 := by
  rw [natRepr_length n (by omega)]
  have : Nat.log 10 n = 3 :=
    Nat.log_eq_of_pow_le_of_lt_pow (by norm_num; omega) (by norm_num; omega)
  omega

theorem pad2_length {n : Nat} (h : n ≤ 99) : (pad2 n).length = 2 := by
  unfold pad2
  by_cases hn : n < 10
  · rw [if_pos hn, List.length_cons]
    by_cases h0 : n = 0
    · subst h0; rfl
    · rw [natRepr_length n (by omega)]
      have : Nat.log 10 n = 0 := Nat.log_eq_zero_iff.mpr (Or.inl hn)
      omega
  · rw [if_neg hn, natRepr_length n (by omega)]
    have : Nat.log 10 n = 1 :=
      Nat.log_eq_of_pow_le_of_lt_pow (by norm_num; omega) (by norm_num; omega)
    omega

/-! ## Storage scans (`storage.py`)

`storage_root.rglob("*")` is modelled as a list of entries, each with its
path, `st_mtime` (seconds) and an `is_file` flag (`rglob` also yields
directories, which both scans skip).  A per-path Boolean oracle `statFails`
models the `OSError`s that `cleanup_older_than` catches per file (from
`stat` or `unlink`).  Root non-existence is a separate Boolean, checked
first by both functions. -/

structure Entry where
  path : Path
  mtime : Int
  isFile : Bool
deriving DecidableEq, Repr

/-- The condition under which `cleanup_older_than` deletes an entry: a
regular file, whose `stat`/`unlink` does not fail, with mtime strictly
before the cutoff. -/
def entryCond (cutoff : Int) (statFails : Path → Bool) (e : Entry) : Bool :=
  e.isFile && !statFails e.path && decide (e.mtime < cutoff)

/-- The per-entry loop of `cleanup_older_than` (`storage.py` lines 27-37):
skip non-files, skip entries whose stat/unlink raises `OSError`, unlink and
record entries older than the cutoff.  Returns (deleted paths in scan
order, surviving entries). -/
def cleanupScan (cutoff : Int) (statFails : Path → Bool) :
    List Entry → List Path × List Entry
  | [] => ([], [])
  | e :: rest =>
    let r := cleanupScan cutoff statFails rest
    if e.isFile = false then (r.1, e :: r.2)
    else if statFails e.path = true then (r.1, e :: r.2)
    else if e.mtime < cutoff then (e.path :: r.1, r.2)
    else (r.1, e :: r.2)

/-- Model of `cleanup_older_than` (`storage.py` lines 18-39).  The cutoff
is `now - timedelta(days=retention_days)`, i.e. `now - retention_days *
86400` seconds.  The second component is the surviving filesystem state
(implicit in the source); the first is the returned `deleted` list. -/
def cleanup_older_than (now : Int) (retention_days : Nat) (rootExists : Bool)
    (entries : List Entry) (statFails : Path → Bool) :
    List Path × List Entry :=
  if rootExists = false then ([], entries)
  else cleanupScan (now - (retention_days : Int) * 86400) statFails entries

/-- Descending-mtime order used by `sorted(..., key=st_mtime,
reverse=True)`. -/
def byMtimeDesc (a b : Entry) : Prop := b.mtime ≤ a.mtime

instance : DecidableRel byMtimeDesc :=
  fun a b => inferInstanceAs (Decidable (b.mtime ≤ a.mtime))

instance : IsTotal Entry byMtimeDesc :=
  ⟨fun a b => le_total b.mtime a.mtime⟩

instance : IsTrans Entry byMtimeDesc :=
  ⟨fun _ _ _ hab hbc => le_trans hbc hab⟩

/-- Model of `list_recent_images` before the final path projection
(`storage.py` lines 42-52): keep regular files, optionally drop entries
whose NAME CONTAINS `_mask`, sort stably by mtime descending, take the
first `limit`.  Python's sort is stable, and a stable sort is uniquely
determined by the key order, so `insertionSort` computes the same list. -/
def list_recent_entries (rootExists : Bool) (entries : List Entry)
    (limit : Nat) (include_overlays : Bool) : List Entry :=
  if rootExists = false then []
  else
    (List.insertionSort byMtimeDesc
      (if include_overlays then entries.filter (fun e => e.isFile)
       else (entries.filter (fun e => e.isFile)).filter
         (fun e => !is_overlay e.path))).take limit

/-- Model of `list_recent_images` (`storage.py` lines 42-52). -/
def list_recent_images (rootExists : Bool) (entries : List Entry)
    (limit : Nat) (include_overlays : Bool) : List Path :=
  (list_recent_entries rootExists entries limit include_overlays).map Entry.path

/-! ### Cleanup characterisation -/

theorem cleanupScan_eq (cutoff : Int) (sf : Path → Bool) :
    ∀ entries : List Entry,
      cleanupScan cutoff sf entries =
        ((entries.filter (entryCond cutoff sf)).map Entry.path,
          entries.filter (fun e => !entryCond cutoff sf e)) := by
  intro entries
  induction entries with
  | nil => rfl
  | cons e rest ih =>
    simp only [cleanupScan, ih]
    by_cases h1 : e.isFile
    · by_cases h2 : sf e.path
      · simp [entryCond, h1, h2, List.filter_cons]
      · by_cases h3 : e.mtime < cutoff
        · simp [entryCond, h1, h2, h3, List.filter_cons]
        · simp [entryCond, h1, h2, h3, List.filter_cons]
    · simp [entryCond, h1, List.filter_cons]

/-- Claim C7: with the storage root present, `cleanup_older_than` deletes a
file (that stats cleanly) iff its mtime is strictly before
`now - retentionDays`; a file with mtime at the cutoff, or one second
after, is retained; the surviving state is exactly the non-deleted entries;
and a per-file OS error only skips that file, never aborting the sweep. -/
theorem cleanup_older_than_cutoff (now : Int) (ret : Nat)
    (entries : List Entry) (sf : Path → Bool) (e : Entry)
    (hnd : (entries.map Entry.path).Nodup)
    (he : e ∈ entries) (hf : e.isFile = true) (hs : sf e.path = false) :
    (e.path ∈ (cleanup_older_than now ret true entries sf).1 ↔
      e.mtime < now - (ret : Int) * 86400) ∧
    (e.mtime = now - (ret : Int) * 86400 →
      e.path ∉ (cleanup_older_than now ret true entries sf).1) ∧
    (e.mtime = now - (ret : Int) * 86400 + 1 →
      e.path ∉ (cleanup_older_than now ret true entries sf).1) ∧
    ((cleanup_older_than now ret true entries sf).2 =
      entries.filter
        (fun x => !entryCond (now - (ret : Int) * 86400) sf x)) ∧
    (∀ e2 ∈ entries, sf e2.path = true →
      e2 ∈ (cleanup_older_than now ret true entries sf).2) := by
  have hscan :
      cleanup_older_than now ret true entries sf =
        ((entries.filter
            (entryCond (now - (ret : Int) * 86400) sf)).map Entry.path,
          entries.filter
            (fun x => !entryCond (now - (ret : Int) * 86400) sf x)) := by
    unfold cleanup_older_than
    rw [if_neg (by simp)]
    exact cleanupScan_eq _ _ entries
  rw [hscan]
  have hmain : e.path ∈
      ((entries.filter (entryCond (now - (ret : Int) * 86400) sf)).map
        Entry.path) ↔ e.mtime < now - (ret : Int) * 86400 := by
    constructor
    · intro hmem
      rcases List.mem_map.mp hmem with ⟨e2, he2, hpath⟩
      rcases List.mem_filter.mp he2 with ⟨he2m, hcond⟩
      have : e2 = e := List.inj_on_of_nodup_map hnd he2m he hpath
      subst this
      simp only [entryCond, Bool.and_eq_true, decide_eq_true_eq] at hcond
      exact hcond.2
    · intro hlt
      refine List.mem_map.mpr ⟨e, List.mem_filter.mpr ⟨he, ?_⟩, rfl⟩
      simp [entryCond, hf, hs, hlt]
  refine ⟨hmain, ?_, ?_, rfl, ?_⟩
  · intro heq hmem
    have := hmain.mp hmem
    omega
  · intro heq hmem
    have := hmain.mp hmem
    omega
  · intro e2 he2 hsf
    refine List.mem_filter.mpr ⟨he2, ?_⟩
    simp [entryCond, hsf]

/-- Claim C7 witness: with `now` at day 100 and a one-day retention, a file
of mtime 0 is reported deleted. -/
theorem cleanup_older_than_cutoff_witness :
    (⟨[['a']], 0, true⟩ : Entry).path ∈
      (cleanup_older_than (100 * 86400) 1 true
        [⟨[['a']], 0, true⟩, ⟨[['b']], 99 * 86400 + 1, true⟩]
        (fun _ => false)).1 :=
  (cleanup_older_than_cutoff (100 * 86400) 1
    [⟨[['a']], 0, true⟩, ⟨[['b']], 99 * 86400 + 1, true⟩]
    (fun _ => false) ⟨[['a']], 0, true⟩
    (by decide) (by decide) rfl rfl).1.mpr (by decide)

/-- Claim C10: when the storage root does not exist, `cleanup_older_than`
returns an empty deleted list leaving the entries untouched, and
`list_recent_images` returns an empty list; neither raises. -/
theorem missing_root_noop (now : Int) (ret : Nat) (entries : List Entry)
    (sf : Path → Bool) (limit : Nat) (include_overlays : Bool) :
    cleanup_older_than now ret false entries sf = ([], entries) ∧
    list_recent_images false entries limit include_overlays = [] :=
  ⟨rfl, rfl⟩

/-! ### Recent-image listing (claim C5) -/

theorem list_recent_images_excludes_substring (entries : List Entry)
    (limit : Nat) :
    (∀ e ∈ list_recent_entries true entries limit false,
        e ∈ entries ∧ e.isFile = true ∧ ¬ maskSuf <:+: pName e.path) ∧
    (list_recent_entries true entries limit false).length ≤ limit ∧
    (list_recent_entries true entries limit false).Pairwise byMtimeDesc ∧
    (∀ e ∈ entries, e.isFile = true → ¬ maskSuf <:+: pName e.path →
        e ∉ list_recent_entries true entries limit false →
        (list_recent_entries true entries limit false).length = limit ∧
        ∀ f ∈ list_recent_entries true entries limit false,
          e.mtime ≤ f.mtime) ∧
    list_recent_images true entries limit false =
      (list_recent_entries true entries limit false).map Entry.path := by
  have hdef : list_recent_entries true entries limit false =
      (List.insertionSort byMtimeDesc
        ((entries.filter (fun e => e.isFile)).filter
          (fun e => !is_overlay e.path))).take limit := rfl
  set L := (entries.filter (fun e => e.isFile)).filter
    (fun e => !is_overlay e.path) with hL
  set S := List.insertionSort byMtimeDesc L with hS
  have hSp : S.Perm L := List.perm_insertionSort byMtimeDesc L
  have hSs : S.Pairwise byMtimeDesc := List.sorted_insertionSort byMtimeDesc L
  have hmemL : ∀ e : Entry, e ∈ L ↔
      e ∈ entries ∧ e.isFile = true ∧ ¬ maskSuf <:+: pName e.path := by
    intro e
    rw [hL]
    constructor
    · intro h
      rcases List.mem_filter.mp h with ⟨h1, h2⟩
      rcases List.mem_filter.mp h1 with ⟨h3, h4⟩
      refine ⟨h3, h4, ?_⟩
      simpa [is_overlay] using h2
    · intro ⟨h1, h2, h3⟩
      exact List.mem_filter.mpr
        ⟨List.mem_filter.mpr ⟨h1, h2⟩, by simpa [is_overlay] using h3⟩
  refine ⟨?_, ?_, ?_, ?_, rfl⟩
  · intro e he
    rw [hdef] at he
    exact (hmemL e).mp (hSp.subset (List.take_subset _ _ he))
  · rw [hdef, List.length_take]
    exact min_le_left _ _
  · rw [hdef]
    exact hSs.sublist (List.take_sublist _ _)
  · intro e he hf hov hnot
    rw [hdef] at hnot
    have heL : e ∈ L := (hmemL e).mpr ⟨he, hf, hov⟩
    have heS : e ∈ S := hSp.mem_iff.mpr heL
    have hsplit : S.take limit ++ S.drop limit = S := List.take_append_drop _ _
    have heDrop : e ∈ S.drop limit := by
      rcases List.mem_append.mp (by rw [hsplit]; exact heS) with h | h
      · exact absurd h hnot
      · exact h
    have hlen : limit < S.length := by
      by_contra hle
      push_neg at hle
      rw [List.drop_eq_nil_of_le hle] at heDrop
      exact absurd heDrop (List.not_mem_nil e)
    constructor
    · rw [hdef, List.length_take]
      omega
    · intro f hfmem
      rw [hdef] at hfmem
      have hpw : (S.take limit ++ S.drop limit).Pairwise byMtimeDesc := by
        rw [hsplit]; exact hSs
      exact (List.pairwise_append.mp hpw).2.2 f hfmem e heDrop

/-- Claim C5 counterexample: `a_maskb.jpg` is a raw frame (its stem does
not end in the overlay derivation suffix), yet `list_recent_images` with
`include_overlays = false` excludes it, because the code tests for
`"_mask"` as a substring of the whole name. -/
theorem list_recent_images_counterexample :
    list_recent_images true
      [⟨[['a', '_', 'm', 'a', 's', 'k', 'b', '.', 'j', 'p', 'g']], 0, true⟩]
      2 false = [] ∧
    (⟨[['a', '_', 'm', 'a', 's', 'k', 'b', '.', 'j', 'p', 'g']], 0,
      true⟩ : Entry).isFile = true ∧
    ¬ overlayNamedSpec
      (pName (⟨[['a', '_', 'm', 'a', 's', 'k', 'b', '.', 'j', 'p', 'g']], 0,
        true⟩ : Entry).path) := by
  refine ⟨by decide, rfl, ?_⟩
  show ¬ maskSuf <:+ pyStem (pName
    (⟨[['a', '_', 'm', 'a', 's', 'k', 'b', '.', 'j', 'p', 'g']], 0,
      true⟩ : Entry).path)
  decide

/-- Claim C5 witness: on three eligible files of mtimes 5, 3, 7 with
`limit = 2`, the excluded mtime-3 file certifies that the listing is full. -/
theorem list_recent_images_excludes_substring_witness :
    (list_recent_entries true
      [⟨[['a', '.', 'j', 'p', 'g']], 5, true⟩,
       ⟨[['b', '.', 'j', 'p', 'g']], 3, true⟩,
       ⟨[['c', '.', 'j', 'p', 'g']], 7, true⟩] 2 false).length = 2 :=
  ((list_recent_images_excludes_substring
    [⟨[['a', '.', 'j', 'p', 'g']], 5, true⟩,
     ⟨[['b', '.', 'j', 'p', 'g']], 3, true⟩,
     ⟨[['c', '.', 'j', 'p', 'g']], 7, true⟩] 2).2.2.2.1
    ⟨[['b', '.', 'j', 'p', 'g']], 3, true⟩
    (by decide) rfl (by decide) (by decide)).1

/-! ## Incoming processor (`incoming.py`)

`IncomingProcessor.process_file` is modelled over an explicit filesystem
state: the set of regular files with their mtimes.  `shutil.move` is an
atomic rename preserving the mtime; its possible OS-level failure
(`OSError`/`shutil.Error`, caught at lines 29-32) is a Boolean oracle on
(source, destination).  `ensure_directories` only creates directories and
is not represented.  The `on_processed` callback (lines 34-38) swallows
every exception and does not affect the return value or file state, so it
is omitted. -/

structure IncomingFS where
  files : List (Path × Int)
deriving DecidableEq, Repr

/-- Model of `path.is_file()`. -/
def IncomingFS.isFile (fs : IncomingFS) (p : Path) : Bool :=
  fs.files.any (fun q => decide (q.1 = p))

/-- Model of `path.stat().st_mtime` (0 when absent, unused in that case). -/
def IncomingFS.mtimeOf (fs : IncomingFS) (p : Path) : Int :=
  ((fs.files.find? (fun q => decide (q.1 = p))).map Prod.snd).getD 0

/-- Model of a successful `shutil.move(src, dst)`: `src` disappears, `dst`
holds the same content with the preserved mtime (overwriting any previous
`dst`). -/
def IncomingFS.move (fs : IncomingFS) (src dst : Path) (m : Int) :
    IncomingFS :=
  ⟨(fs.files.filter
      (fun q => !decide (q.1 = src) && !decide (q.1 = dst))) ++ [(dst, m)]⟩

/-- Model of `IncomingProcessor.process_file` (`incoming.py` lines 21-40):
ignore non-files, compute the archive destination from the source's mtime,
attempt the move; an OS-level move failure returns `None` leaving the state
unchanged; success returns the destination. -/
def process_file (storage_root : Path) (moveFails : Path → Path → Bool)
    (fs : IncomingFS) (p : Path) : Option Path × IncomingFS :=
  if fs.isFile p = false then (none, fs)
  else if moveFails p (archive_path storage_root (fs.mtimeOf p) (pName p))
  then (none, fs)
  else (some (archive_path storage_root (fs.mtimeOf p) (pName p)),
    fs.move p (archive_path storage_root (fs.mtimeOf p) (pName p))
      (fs.mtimeOf p))

theorem isFile_move_dst (fs : IncomingFS) (src dst : Path) (m : Int) :
    (fs.move src dst m).isFile dst = true := by
  unfold IncomingFS.isFile IncomingFS.move
  simp

theorem isFile_move_src (fs : IncomingFS) (src dst : Path) (m : Int)
    (h : src ≠ dst) : (fs.move src dst m).isFile src = false := by
  unfold IncomingFS.isFile IncomingFS.move
  rw [List.any_eq_false]
  intro q hq
  simp only [decide_eq_true_eq]
  rcases List.mem_append.mp hq with hq1 | hq2
  · have hfilt := (List.mem_filter.mp hq1).2
    simp only [Bool.and_eq_true, Bool.not_eq_true', decide_eq_false_iff_not]
      at hfilt
    exact hfilt.1
  · rw [List.mem_singleton] at hq2
    subst hq2
    exact fun hc => h hc.symm

theorem process_file_success (sr : Path) (mf : Path → Path → Bool)
    (fs : IncomingFS) (p : Path) :
    ∀ (tgt : Path) (fs1 : IncomingFS),
      process_file sr mf fs p = (some tgt, fs1) →
      tgt = archive_path sr (fs.mtimeOf p) (pName p) ∧
      fs1.isFile tgt = true ∧
      (p ≠ tgt → fs1.isFile p = false ∧
        process_file sr mf fs1 p = (none, fs1)) := by
  intro tgt fs1 h
  by_cases h1 : fs.isFile p = false
  · simp [process_file, h1] at h
  · by_cases h2 : mf p (archive_path sr (fs.mtimeOf p) (pName p)) = true
    · simp [process_file, h1, h2] at h
    · have hredux : process_file sr mf fs p =
          (some (archive_path sr (fs.mtimeOf p) (pName p)),
            fs.move p (archive_path sr (fs.mtimeOf p) (pName p))
              (fs.mtimeOf p)) := by
        unfold process_file
        rw [if_neg h1, if_neg h2]
      rw [hredux] at h
      have htgt : archive_path sr (fs.mtimeOf p) (pName p) = tgt :=
        Option.some.inj (congrArg Prod.fst h)
      have hfs1 : fs.move p (archive_path sr (fs.mtimeOf p) (pName p))
          (fs.mtimeOf p) = fs1 := congrArg Prod.snd h
      subst htgt
      subst hfs1
      refine ⟨rfl, isFile_move_dst _ _ _ _, ?_⟩
      intro hne
      have hgone := isFile_move_src fs p _ (fs.mtimeOf p) hne
      refine ⟨hgone, ?_⟩
      unfold process_file
      rw [if_pos hgone]

/-- Claim C3: `process_file` returns nothing, with the state unchanged and
without raising (the model is a total function), when the source is not an
existing regular file or when the move fails at the OS level; on success it
returns the archive destination, and — when the source path is distinct
from the destination — a second invocation finds the source gone, returns
nothing and leaves the archive unchanged, so no duplicate entry is ever
created. -/
theorem process_file_idempotent (sr : Path) (mf : Path → Path → Bool)
    (fs : IncomingFS) (p : Path) :
    (fs.isFile p = false → process_file sr mf fs p = (none, fs)) ∧
    (fs.isFile p = true →
      mf p (archive_path sr (fs.mtimeOf p) (pName p)) = true →
      process_file sr mf fs p = (none, fs)) ∧
    (∀ (tgt : Path) (fs1 : IncomingFS),
      process_file sr mf fs p = (some tgt, fs1) →
      tgt = archive_path sr (fs.mtimeOf p) (pName p) ∧
      fs1.isFile tgt = true ∧
      (p ≠ tgt → fs1.isFile p = false ∧
        process_file sr mf fs1 p = (none, fs1))) := by
  refine ⟨?_, ?_, process_file_success sr mf fs p⟩
  · intro h
    simp [process_file, h]
  · intro h1 h2
    simp [process_file, h1, h2]

/-- Claim C3 witness: a file `a` with mtime 0 is archived at
`1970/01/01/a`; re-running `process_file` on the vanished source is a
no-op returning nothing. -/
theorem process_file_idempotent_witness :
    process_file [] (fun _ _ => false) ⟨[([['a']], 0)]⟩ [['a']] =
      (some (archive_path [] 0 ['a']),
        ⟨[(archive_path [] 0 ['a'], 0)]⟩) ∧
    process_file [] (fun _ _ => false) ⟨[(archive_path [] 0 ['a'], 0)]⟩
      [['a']] = (none, ⟨[(archive_path [] 0 ['a'], 0)]⟩) := by
  have h := process_file_idempotent [] (fun _ _ => false) ⟨[([['a']], 0)]⟩
    [['a']]
  refine ⟨by decide, ?_⟩
  exact ((h.2.2 (archive_path [] 0 ['a']) ⟨[(archive_path [] 0 ['a'], 0)]⟩
    (by decide)).2.2 (by decide)).2

/-- Claim C6: `archive_path` is the pure mapping
`root/YYYY/MM/DD/name` — a four-digit year (for years 1000..9999) and
zero-padded two-digit month and day taken from the timestamp — and a
successful `process_file` returns exactly
`archive_path(storage_root, mtime, name)`, where the moved file then
resides. -/
theorem archive_path_layout (root : Path) (ts : Int) (nm : Name)
    (h1 : 1000 ≤ (dateOfEpoch ts).year) (h2 : (dateOfEpoch ts).year < 10000) :
    archive_path root ts nm =
      root ++ [natRepr (dateOfEpoch ts).year.toNat,
        pad2 (dateOfEpoch ts).month, pad2 (dateOfEpoch ts).day, nm] ∧
    (natRepr (dateOfEpoch ts).year.toNat).length = 4 ∧
    (pad2 (dateOfEpoch ts).month).length = 2 ∧
    (pad2 (dateOfEpoch ts).day).length = 2 ∧
    1 ≤ (dateOfEpoch ts).month ∧ (dateOfEpoch ts).month ≤ 12 ∧
    1 ≤ (dateOfEpoch ts).day ∧ (dateOfEpoch ts).day ≤ 31 ∧
    ∀ (sr : Path) (mf : Path → Path → Bool) (fs : IncomingFS) (p : Path)
      (tgt : Path) (fs1 : IncomingFS),
      process_file sr mf fs p = (some tgt, fs1) →
      tgt = archive_path sr (fs.mtimeOf p) (pName p) ∧
      fs1.isFile tgt = true := by
  have hm := date_month_bounds ts
  have hd := date_day_bounds ts
  refine ⟨rfl, ?_, pad2_length (by omega), pad2_length (by omega),
    hm.1, hm.2, hd.1, hd.2, ?_⟩
  · exact natRepr_length_four (by omega) (by omega)
  · intro sr mf fs p tgt fs1 h
    have := process_file_success sr mf fs p tgt fs1 h
    exact ⟨this.1, this.2.1⟩

/-- Claim C6 witness: epoch second 1760227200 is 2025-10-12, and the
archive path has the `YYYY/MM/DD` shape with the required digit counts. -/
theorem archive_path_layout_witness :
    archive_path [] 1760227200 ['x'] =
      [['2', '0', '2', '5'], ['1', '0'], ['1', '2'], ['x']] ∧
    (natRepr (dateOfEpoch 1760227200).year.toNat).length = 4 := by
  have h := archive_path_layout [] 1760227200 ['x'] (by decide) (by decide)
  exact ⟨by decide, h.2.1⟩

/-! ## Staleness (`main.py`) and kernel rounding (`detection.py`) -/

/-- Model of the staleness derivation in the dashboard handler
(`main.py` lines 78, 111-114): `delay_warning` starts `False` and is
reassigned to `delta > threshold` only when delay monitoring is enabled and
a last-ingestion timestamp exists (`app.state.last_image_at` is `None`
until the first successful ingestion). -/
def delay_warning (delay_monitor_enabled : Bool) (last_image_at : Option Int)
    (now : Int) (delay_threshold_seconds : Int) : Bool :=
  match delay_monitor_enabled, last_image_at with
  | true, some t => decide (now - t > delay_threshold_seconds)
  | _, _ => false

/-- Claim C8: staleness is `(now - lastSuccessfulIngestion) >
delayThresholdSeconds` with a strict comparison, evaluated only when delay
monitoring is enabled and an ingestion has occurred; it is `false` when
monitoring is disabled and `false` before the first ingestion. -/
theorem delay_warning_staleness :
    (∀ (now thresh t : Int),
      delay_warning true (some t) now thresh = decide (now - t > thresh)) ∧
    (∀ (now thresh : Int) (last : Option Int),
      delay_warning false last now thresh = false) ∧
    (∀ (now thresh : Int) (enabled : Bool),
      delay_warning enabled none now thresh = false) := by
  refine ⟨fun _ _ _ => rfl, fun now thresh last => ?_, fun now thresh e => ?_⟩
  · cases last <;> rfl
  · cases e <;> rfl

/-- Model of `_ensure_odd` (`detection.py` lines 48-49). -/
def ensure_odd (value : Nat) : Nat :=
  if value % 2 = 1 then value else value + 1

/-- Claim C9: for every configured blur kernel size `k ≥ 1` (the
`Settings.blur_kernel` validation bound), the effective smoothing kernel
`_ensure_odd k` is odd and at least `k`, even values being bumped to the
next odd value. -/
theorem ensure_odd_spec (k : Nat) (h : 1 ≤ k) :
    ensure_odd k % 2 = 1 ∧ k ≤ ensure_odd k ∧
    (k % 2 = 0 → ensure_odd k = k + 1) := by
  unfold ensure_odd
  split <;> omega

/-- Claim C9 witness at the even kernel size 4. -/
theorem ensure_odd_spec_witness :
    ensure_odd 4 % 2 = 1 ∧ 4 ≤ ensure_odd 4 ∧ ensure_odd 4 = 4 + 1 := by
  have h := ensure_odd_spec 4 (by decide)
  exact ⟨h.1, h.2.1, h.2.2 rfl⟩

/-! ## Change detection (`detection.py`)

Images are row-major pixel grids with `Nat` channel values (0..255 for
decoded 8-bit data).  The OpenCV primitives the code calls are modelled at
their documented exact integer semantics:

* `cv2.cvtColor(BGR2GRAY)` uses the fixed-point weights
  `(R*4899 + G*9617 + B*1868 + 2^13) >> 14` (the weights sum to `2^14`).
* `cv2.GaussianBlur(k, k, sigma=0)` on 8-bit data with `k ≤ 7` uses the
  exact dyadic kernel table (`{1}`, `{1,2,1}/4`, `{1,4,6,4,1}/16`,
  `{8,28,56,72,56,28,8}/256`) applied separably in fixed point with
  `BORDER_REFLECT_101`; the result is `(Σ 256·w_i·x_i + 2^15) >> 16`.
  Larger kernels take OpenCV's floating-point path, which has no exact
  integer semantics, so they are out of the modelled domain (`none`).
* `cv2.resize(INTER_LINEAR)` (used only when the two frames differ in
  size) is floating-point bilinear interpolation; it is likewise modelled
  only in the trivial equal-shape case.
* `cv2.resize(INTER_NEAREST)` maps destination index `j` to source index
  `min (srcDim - 1) (j * srcDim / dstDim)`.
* `cv2.threshold(THRESH_BINARY, t, 255)` maps `v ↦ 255` iff `v > t`.
* `cv2.erode`/`cv2.dilate` with the all-ones 3×3 structuring element take
  the neighbourhood min/max; the default border value is `+∞` for erosion
  and `-∞` for dilation, so out-of-range pixels never constrain the
  result (modelled as border 255 resp. 0 for 8-bit data).
* `cv2.imwrite` of the overlay image and the overlay rendering itself
  (`_overlay`, a float alpha-blend) affect no field of the returned
  `DetectionResult` other than the path name, and are omitted. -/

abbrev Gray := List (List Nat)

abbrev BGRImage := List (List (Nat × Nat × Nat))

/-- `img.shape` of a single-channel matrix: (rows, cols). -/
def gshape (img : Gray) : Nat × Nat := (img.length, (img.headD []).length)

/-- `img.shape[:2]` of a colour matrix: (rows, cols). -/
def shape3 (img : BGRImage) : Nat × Nat := (img.length, (img.headD []).length)

/-- Fixed-point BGR→luminance conversion of one pixel (tuple order
`(b, g, r)`, as decoded by `cv2.imread`). -/
def bgr2grayPx (px : Nat × Nat × Nat) : Nat :=
  (px.1 * 1868 + px.2.1 * 9617 + px.2.2 * 4899 + 8192) / 16384

/-- Model of `cv2.cvtColor(img, cv2.COLOR_BGR2GRAY)`. -/
def cvtColorBGR2GRAY (img : BGRImage) : Gray := img.map (List.map bgr2grayPx)

/-- Model of `_resize_if_needed` (`detection.py` lines 52-55): the identity
when the shapes already match; the bilinear branch is floating point and
out of the modelled domain. -/
def resize_if_needed (img : BGRImage) (target : Nat × Nat) :
    Option BGRImage :=
  if shape3 img = target then some img else none

/-- One fold of `BORDER_REFLECT_101` index reflection. -/
def reflect101Once (n : Nat) (i : Int) : Int :=
  if i < 0 then -i else if (n : Int) ≤ i then 2 * ((n : Int) - 1) - i else i

/-- `BORDER_REFLECT_101` index for kernel radii up to 3 (three folds always
suffice for the radii that occur); a single row/column reflects to
index 0. -/
def borderIdx (n : Nat) (i : Int) : Nat :=
  if n ≤ 1 then 0
  else (reflect101Once n (reflect101Once n (reflect101Once n i))).toNat

/-- OpenCV's small-Gaussian kernel for `sigma = 0`, scaled by 256 (the
8-bit fixed-point form); defined exactly for the sizes 1, 3, 5, 7. -/
def gaussTab256 : Nat → Option (List Nat)
  | 1 => some [256]
  | 3 => some [64, 128, 64]
  | 5 => some [16, 64, 96, 64, 16]
  | 7 => some [8, 28, 56, 72, 56, 28, 8]
  | _ => none

/-- Horizontal pass of the separable fixed-point filter. -/
def rowFilter (ker : List Nat) (img : Gray) : Gray :=
  img.map (fun row =>
    (List.range row.length).map (fun j =>
      ((List.range ker.length).map (fun t =>
        ker.getD t 0 *
          row.getD (borderIdx row.length ((j : Int) + t - (ker.length / 2)))
            0)).sum))

/-- Vertical pass of the separable fixed-point filter, with the final
`(sum + 2^15) >> 16` descaling. -/
def colFilterDescale (ker : List Nat) (img : Gray) : Gray :=
  (List.range img.length).map (fun i =>
    (List.range ((img.getD i []).length)).map (fun j =>
      (((List.range ker.length).map (fun t =>
        ker.getD t 0 *
          (img.getD (borderIdx img.length ((i : Int) + t - (ker.length / 2)))
            []).getD j 0)).sum + 32768) / 65536))

/-- Model of `cv2.GaussianBlur(img, (k, k), 0)` on 8-bit data, for the
kernel sizes with exact integer semantics. -/
def gaussianBlur (ksize : Nat) (img : Gray) : Option Gray :=
  (gaussTab256 ksize).map (fun ker => colFilterDescale ker (rowFilter ker img))

/-- Model of `cv2.absdiff`. -/
def absdiff (a b : Gray) : Gray :=
  List.zipWith (fun ra rb =>
    List.zipWith (fun (x y : Nat) => ((x : Int) - (y : Int)).natAbs) ra rb) a b

/-- Model of `cv2.threshold(img, thresh, 255, cv2.THRESH_BINARY)`. -/
def thresholdBin (thresh : Nat) (img : Gray) : Gray :=
  img.map (List.map (fun v => if thresh < v then 255 else 0))

/-- Model of `cv2.bitwise_and(img, img, mask=mask)`: keep a pixel where the
mask is nonzero, zero elsewhere. -/
def bitwise_and_masked (img mask : Gray) : Gray :=
  List.zipWith (fun ri rm =>
    List.zipWith (fun v m => if m ≠ 0 then v else 0) ri rm) img mask

/-- Pixel access with an explicit out-of-range border value. -/
def pxI (img : Gray) (border : Nat) (i j : Int) : Nat :=
  if 0 ≤ i ∧ 0 ≤ j then (img.getD i.toNat []).getD j.toNat border else border

/-- The 3×3 neighbourhood offsets of the `MORPH_RECT` structuring element
built at `detection.py` line 124. -/
def offs3 : List (Int × Int) :=
  [(-1, -1), (-1, 0), (-1, 1), (0, -1), (0, 0), (0, 1), (1, -1), (1, 0),
    (1, 1)]

/-- Model of `cv2.erode` with the 3×3 all-ones kernel (border `+∞`,
saturated to 255 on 8-bit data). -/
def erode3 (img : Gray) : Gray :=
  (List.range img.length).map (fun i =>
    (List.range (gshape img).2).map (fun j =>
      offs3.foldl (fun acc od =>
        min acc (pxI img 255 ((i : Int) + od.1) ((j : Int) + od.2))) 255))

/-- Model of `cv2.dilate` with the 3×3 all-ones kernel (border `-∞`,
saturated to 0 on 8-bit data). -/
def dilate3 (img : Gray) : Gray :=
  (List.range img.length).map (fun i =>
    (List.range (gshape img).2).map (fun j =>
      offs3.foldl (fun acc od =>
        max acc (pxI img 0 ((i : Int) + od.1) ((j : Int) + od.2))) 0))

/-- Model of `cv2.countNonZero`. -/
def countNonZero (img : Gray) : Nat :=
  (img.map (fun row => (row.filter (fun v => v ≠ 0)).length)).sum

/-- Model of `cv2.resize(mask, (tw, th), interpolation=cv2.INTER_NEAREST)`
(target given as (rows, cols)). -/
def resizeNearest (src : Gray) (target : Nat × Nat) : Gray :=
  (List.range target.1).map (fun i =>
    (List.range target.2).map (fun j =>
      (src.getD (min (src.length - 1) (i * src.length / target.1)) []).getD
        (min ((gshape src).2 - 1) (j * (gshape src).2 / target.2)) 0))

/-- `np.ones(shape, dtype=uint8) * 255`: the full-frame-active mask. -/
def fullMask (target : Nat × Nat) : Gray :=
  List.replicate target.1 (List.replicate target.2 255)

/-- Model of `_load_mask_image` (`detection.py` lines 30-45).  The three
full-frame returns of the source (masking disabled; mask file absent; mask
file undecodable) appear here as the `inclusive = false` branch and the
`none` branch (absence and decode failure both yield no decoded mask).
Otherwise the decoded mask is resized if its shape differs and then
binarised by `cv2.threshold(mask, 1, 255, cv2.THRESH_BINARY)`. -/
def load_mask_image (mask_img : Option Gray) (target_shape : Nat × Nat)
    (inclusive : Bool) : Gray :=
  if inclusive = false then fullMask target_shape
  else
    match mask_img with
    | none => fullMask target_shape
    | some mask =>
      thresholdBin 1
        (if gshape mask ≠ target_shape then resizeNearest mask target_shape
         else mask)

/-- The configuration fields consumed by the modelled code paths
(`config.py` lines 11-25).  The string-valued fields (overlay colour and
notification credentials) feed only the overlay rendering and the alert
dispatch, neither of which affects any modelled value, and are omitted. -/
structure Settings where
  threshold : ℚ := 15 / 100
  consecutive_hits : Nat := 3
  binary_threshold : Nat := 30
  blur_kernel : Nat := 3
  overlay_alpha : ℚ := 35 / 100
  delay_monitor_enabled : Bool := true
  delay_threshold_seconds : Int := 300
  alarm_enabled : Bool := true
  mask_inclusive : Bool := true
  gpio_pin : Option Nat := some 17
deriving DecidableEq, Repr

/-- The `DetectionResult` dataclass (`detection.py` lines 14-20).  The
`overlay_path` field is `Optional` in the source but always populated by
`analyze_detection`, so it is a plain `Path` here. -/
structure DetectionResult where
  detection_rate : ℚ
  changed_pixels : Nat
  mask_pixels : Nat
  overlay_path : Path
  alarm : Bool
deriving DecidableEq, Repr

/-- `detection.py` line 130:
`(changed / mask_pixels) if mask_pixels > 0 else 0.0`. -/
def detectionRate (changed mask_pixels : Nat) : ℚ :=
  if 0 < mask_pixels then (changed : ℚ) / (mask_pixels : ℚ) else 0

/-- The resolved active mask of an evaluation (`detection.py` line 120:
`_load_mask_image(mask_path, diff.shape, inclusive=settings.mask_inclusive)`,
where `diff` has the common shape of the two blurred frames). -/
def analyzeMask (gray_latest gray_prev : Gray) (settings : Settings)
    (mask_img : Option Gray) : Gray :=
  load_mask_image mask_img (gshape (absdiff gray_latest gray_prev))
    settings.mask_inclusive

/-- The binary change map of an evaluation (`detection.py` lines 118-126):
absolute difference, mask application, binarisation at the configured
threshold, one fixed 3×3 morphological opening pass, then one closing
pass. -/
def analyzeBinary (gray_latest gray_prev : Gray) (settings : Settings)
    (mask_img : Option Gray) : Gray :=
  let diff := absdiff gray_latest gray_prev
  let diffm := bitwise_and_masked diff
    (analyzeMask gray_latest gray_prev settings mask_img)
  let binary := thresholdBin settings.binary_threshold diffm
  erode3 (dilate3 (dilate3 (erode3 binary)))

/-- The tail of `analyze_detection` after decoding, resizing and blurring
(`detection.py` lines 118-147): pixel counts of the binary change map and
the active mask, the guarded rate, the overlay name, the alarm flag. -/
def analyzeCore (gray_latest gray_prev : Gray) (settings : Settings)
    (mask_img : Option Gray) (latest_path : Path) : DetectionResult :=
  let changed :=
    countNonZero (analyzeBinary gray_latest gray_prev settings mask_img)
  let mask_pixels :=
    countNonZero (analyzeMask gray_latest gray_prev settings mask_img)
  ⟨detectionRate changed mask_pixels, changed, mask_pixels,
    overlay_path latest_path,
    decide (settings.threshold ≤ detectionRate changed mask_pixels)⟩

/-- Model of `analyze_detection` (`detection.py` lines 98-147).  The two
frame arguments are the `_read_image` results (`none` = decode failure,
line 106 returns `None`); `mask_img` is the decoded mask artifact.  The
result is also `none` when a needed OpenCV operation (bilinear resize,
large-kernel blur) has no exact integer semantics and is outside the
modelled domain. -/
def analyze_detection (latest_img previous_img : Option BGRImage)
    (settings : Settings) (mask_img : Option Gray) (latest_path : Path) :
    Option DetectionResult :=
  match latest_img, previous_img with
  | some img_latest, some img_prev0 =>
    match resize_if_needed img_prev0 (shape3 img_latest) with
    | none => none
    | some img_prev =>
      match
        gaussianBlur (ensure_odd settings.blur_kernel)
          (cvtColorBGR2GRAY img_latest),
        gaussianBlur (ensure_odd settings.blur_kernel)
          (cvtColorBGR2GRAY img_prev) with
      | some gray_latest, some gray_prev =>
        some (analyzeCore gray_latest gray_prev settings mask_img latest_path)
      | _, _ => none
  | _, _ => none

/-! ### Claim C2: mask resolution -/

/-- Claim C2 (amended): the resolved mask is full-frame-active whenever
masking is disabled, the artifact is absent, or it fails to decode;
otherwise the artifact — resized with nearest-neighbour interpolation when
its shape differs — is binarised so that a pixel is active iff its value
EXCEEDS 1 (so value-1 pixels, though positive, are inactive, and
zero-valued pixels are inactive). -/
theorem load_mask_image_resolution (target : Nat × Nat) (m : Option Gray)
    (mask : Gray) :
    (load_mask_image m target false = fullMask target) ∧
    (load_mask_image none target true = fullMask target) ∧
    (gshape mask = target →
      load_mask_image (some mask) target true =
        mask.map (List.map (fun v => if 1 < v then 255 else 0))) ∧
    (gshape mask ≠ target →
      load_mask_image (some mask) target true =
        (resizeNearest mask target).map
          (List.map (fun v => if 1 < v then 255 else 0))) := by
  refine ⟨rfl, rfl, ?_, ?_⟩
  · intro h
    show thresholdBin 1
      (if gshape mask ≠ target then resizeNearest mask target else mask) = _
    rw [if_neg (not_not_intro h)]
    rfl
  · intro h
    show thresholdBin 1
      (if gshape mask ≠ target then resizeNearest mask target else mask) = _
    rw [if_pos h]
    rfl

/-- Claim C2 counterexample: a mask pixel of value 1 is positive, yet the
binarisation `cv2.threshold(mask, 1, 255, THRESH_BINARY)` (strict `> 1`)
marks it INACTIVE, contradicting "every pixel with a positive value is
active". -/
theorem load_mask_image_counterexample :
    load_mask_image (some [[1]]) (1, 1) true = [[0]] ∧ 0 < (1 : Nat) :=
  ⟨by decide, by decide⟩

/-- Claim C2 witness: a same-shape mask with pixel values 0 and 2 resolves
to inactive and active respectively. -/
theorem load_mask_image_resolution_witness :
    load_mask_image (some [[0], [2]]) (2, 1) true = [[0], [255]] := by
  rw [(load_mask_image_resolution (2, 1) (some [[0], [2]])
    [[0], [2]]).2.2.1 (by decide)]
  decide

/-! ### Claim C1: detection-rate range -/

theorem detectionRate_nonneg (c m : Nat) : 0 ≤ detectionRate c m := by
  unfold detectionRate
  split
  · exact div_nonneg (Nat.cast_nonneg c) (Nat.cast_nonneg m)
  · exact le_refl 0

theorem detectionRate_of_zero (c : Nat) : detectionRate c 0 = 0 := rfl

theorem detectionRate_of_pos (c m : Nat) (h : 0 < m) :
    detectionRate c m = (c : ℚ) / (m : ℚ) := if_pos h

theorem analyzeCore_eq (gl gp : Gray) (s : Settings) (mi : Option Gray)
    (lp : Path) :
    analyzeCore gl gp s mi lp =
      ⟨detectionRate (countNonZero (analyzeBinary gl gp s mi))
          (countNonZero (analyzeMask gl gp s mi)),
        countNonZero (analyzeBinary gl gp s mi),
        countNonZero (analyzeMask gl gp s mi),
        overlay_path lp,
        decide (s.threshold ≤
          detectionRate (countNonZero (analyzeBinary gl gp s mi))
            (countNonZero (analyzeMask gl gp s mi)))⟩ := rfl

/-- Claim C1 (amended): whenever `analyze_detection` returns a result, its
`detection_rate` is nonnegative, equals exactly 0 when the count of active
mask pixels is 0, and is the exact quotient `changed_pixels / mask_pixels`
(never a division by zero) when that count is positive.  The upper bound 1
claimed by the spec does NOT hold: the morphological closing can mark
pixels outside the active mask as changed, making the quotient exceed 1
(see the counterexample). -/
theorem analyze_detection_rate (latest_img previous_img : Option BGRImage)
    (settings : Settings) (mask_img : Option Gray) (latest_path : Path)
    (r : DetectionResult)
    (h : analyze_detection latest_img previous_img settings mask_img
      latest_path = some r) :
    0 ≤ r.detection_rate ∧
    (r.mask_pixels = 0 → r.detection_rate = 0) ∧
    (0 < r.mask_pixels →
      r.detection_rate = (r.changed_pixels : ℚ) / (r.mask_pixels : ℚ)) := by
  obtain ⟨gl, gp, hr⟩ :
      ∃ gl gp, r = analyzeCore gl gp settings mask_img latest_path := by
    cases latest_img with
    | none => exact Option.noConfusion h
    | some imgL =>
      cases previous_img with
      | none => exact Option.noConfusion h
      | some imgP0 =>
        have h1 : (match resize_if_needed imgP0 (shape3 imgL) with
            | none => (none : Option DetectionResult)
            | some img_prev =>
              match
                gaussianBlur (ensure_odd settings.blur_kernel)
                  (cvtColorBGR2GRAY imgL),
                gaussianBlur (ensure_odd settings.blur_kernel)
                  (cvtColorBGR2GRAY img_prev) with
              | some gla, some gpa =>
                some (analyzeCore gla gpa settings mask_img latest_path)
              | _, _ => none) = some r := h
        cases hrs : resize_if_needed imgP0 (shape3 imgL) with
        | none =>
          rw [hrs] at h1
          exact Option.noConfusion h1
        | some imgP =>
          rw [hrs] at h1
          have h2 : (match
              gaussianBlur (ensure_odd settings.blur_kernel)
                (cvtColorBGR2GRAY imgL),
              gaussianBlur (ensure_odd settings.blur_kernel)
                (cvtColorBGR2GRAY imgP) with
            | some gla, some gpa =>
              some (analyzeCore gla gpa settings mask_img latest_path)
            | _, _ => (none : Option DetectionResult)) = some r := h1
          cases hb1 : gaussianBlur (ensure_odd settings.blur_kernel)
              (cvtColorBGR2GRAY imgL) with
          | none =>
            rw [hb1] at h2
            exact Option.noConfusion h2
          | some gl =>
            rw [hb1] at h2
            cases hb2 : gaussianBlur (ensure_odd settings.blur_kernel)
                (cvtColorBGR2GRAY imgP) with
            | none =>
              rw [hb2] at h2
              exact Option.noConfusion h2
            | some gp =>
              rw [hb2] at h2
              exact ⟨gl, gp, (Option.some.inj h2).symm⟩
  subst hr
  rw [analyzeCore_eq]
  dsimp only
  refine ⟨detectionRate_nonneg _ _, ?_, ?_⟩
  · intro hm
    rw [hm]
    exact detectionRate_of_zero _
  · intro hm
    exact detectionRate_of_pos _ _ hm

def cexSettings : Settings :=
  { threshold := 15 / 100, consecutive_hits := 3, binary_threshold := 30,
    blur_kernel := 1, overlay_alpha := 35 / 100,
    delay_monitor_enabled := true, delay_threshold_seconds := 300,
    alarm_enabled := true, mask_inclusive := true, gpio_pin := some 17 }

/-- An all-white 1×7 latest frame. -/
def cexLatest : BGRImage := [List.replicate 7 (255, 255, 255)]

/-- An all-black 1×7 previous frame. -/
def cexPrev : BGRImage := [List.replicate 7 (0, 0, 0)]

/-- A 1×7 mask: two active 3-pixel runs separated by one inactive pixel. -/
def cexMask : Gray := [[255, 255, 255, 0, 255, 255, 255]]

def cexPath : Path := [['a', '.', 'j', 'p', 'g']]

/-- Claim C1 counterexample: on fully-changed 1×7 frames with a 6-pixel
active mask, the 3×3 closing fills the masked-out gap, so 7 pixels count as
changed against 6 active mask pixels and `detection_rate = 7/6 > 1`, even
though the active mask pixel count is positive. -/
theorem analyze_detection_rate_counterexample :
    (analyze_detection (some cexLatest) (some cexPrev) cexSettings
        (some cexMask) cexPath).map
      (fun r => (r.changed_pixels, r.mask_pixels)) = some (7, 6) ∧
    (analyze_detection (some cexLatest) (some cexPrev) cexSettings
        (some cexMask) cexPath).map DetectionResult.detection_rate =
      some (((7 : Nat) : ℚ) / ((6 : Nat) : ℚ)) ∧
    1 < ((7 : Nat) : ℚ) / ((6 : Nat) : ℚ) := by
  refine ⟨by decide, rfl, by norm_num⟩

/-- Claim C1 witness for the amended theorem, at the concrete 1×7 input:
the returned rate is nonnegative and equals the exact quotient of the two
returned counts. -/
theorem analyze_detection_rate_witness :
    0 ≤ ((analyze_detection (some cexLatest) (some cexPrev) cexSettings
        (some cexMask) cexPath).getD
      ⟨0, 0, 0, [], false⟩).detection_rate ∧
    ((analyze_detection (some cexLatest) (some cexPrev) cexSettings
        (some cexMask) cexPath).getD
      ⟨0, 0, 0, [], false⟩).detection_rate =
      ((((analyze_detection (some cexLatest) (some cexPrev) cexSettings
        (some cexMask) cexPath).getD
          ⟨0, 0, 0, [], false⟩).changed_pixels : Nat) : ℚ) /
      ((((analyze_detection (some cexLatest) (some cexPrev) cexSettings
        (some cexMask) cexPath).getD
          ⟨0, 0, 0, [], false⟩).mask_pixels : Nat) : ℚ) := by
  have h := analyze_detection_rate (some cexLatest) (some cexPrev)
    cexSettings (some cexMask) cexPath
    ((analyze_detection (some cexLatest) (some cexPrev) cexSettings
      (some cexMask) cexPath).getD ⟨0, 0, 0, [], false⟩) rfl
  exact ⟨h.1, h.2.2 (by decide)⟩

end SnowJamKun
